import Mathlib

/-!
Verification of the BracketPair incremental bracket-colouring engine.

Shallow embedding of `src/documentDecoration.ts` and `src/settings.ts`.
The files `textLine.ts`, `bracketPair.ts`, `foundBracket.ts` are not part of
the provided sources; where they are needed they are modelled from the spec
(each such definition says so in its doc comment).
-/

namespace BracketPairSpec

/-- A (line, character) position, as `vscode.Position`. -/
structure Pos where
  line : Nat
  character : Nat
deriving DecidableEq, Repr

/-- A text range, as `vscode.Range`. -/
structure Range where
  startPos : Pos
  endPos : Pos
deriving DecidableEq, Repr

/-- Modelled from the spec: `foundBracket.ts` is not under `src/`; from its use
in `documentDecoration.ts` a `FoundBracket` is a range plus the matched text. -/
structure FoundBracket where
  range : Range
  character : String
deriving DecidableEq, Repr

/-- The JavaScript number values taken by `lineToUpdateWhenTimeoutEnds`:
a natural line index, or `Infinity` (the post-pass sentinel). -/
inductive JSNum where
  | fin (n : Nat)
  | inf
deriving DecidableEq, Repr

/-- `Math.min` of the marker and an edit's start line
(`Math.min(this.lineToUpdateWhenTimeoutEnds, contentChange.range.start.line)`). -/
def JSNum.minNat : JSNum → Nat → JSNum
  | .fin m, n => .fin (Nat.min m n)
  | .inf, n => .fin n

/-- The JavaScript comparison `lineIndex >= this.lineToUpdateWhenTimeoutEnds`. -/
def JSNum.natGe (lineIndex : Nat) : JSNum → Bool
  | .fin m => m ≤ lineIndex
  | .inf => false

/-- Order on marker values: `a ≤ b`. -/
def JSNum.le : JSNum → JSNum → Prop
  | .fin a, .fin b => a ≤ b
  | .fin _, .inf => True
  | .inf, .fin _ => False
  | .inf, .inf => True

instance (a b : JSNum) : Decidable (a.le b) := by
  cases a <;> cases b <;> simp only [JSNum.le] <;> infer_instance

/- The prism token tree: `prism.tokenize` returns `Array<string | Token>`;
a `Token` has a `type` and a `content` that is a string, an array of
`string | Token`, or another `Token` (the three shapes tested in
`parseToken`). -/
mutual
inductive PrismToken : Type where
  | mk : (type : String) → (content : PrismContent) → PrismToken

inductive PrismContent : Type where
  | str : String → PrismContent
  | arr : List PrismTokOrStr → PrismContent
  | tok : PrismToken → PrismContent

inductive PrismTokOrStr : Type where
  | str : String → PrismTokOrStr
  | tok : PrismToken → PrismTokOrStr
end

def PrismToken.type : PrismToken → String
  | .mk t _ => t

def PrismToken.content : PrismToken → PrismContent
  | .mk _ c => c

/-- JS `content.split("\n")`. -/
def jsSplitNewline (content : String) : List String :=
  (content.toList.splitOn '\n').map fun l => String.mk l

/-- `parseString`: advance the (line, char) cursor over literal text by
splitting on `"\n"` exactly as the source does (the split is never empty, so
`getLastD` is the last segment). -/
def parseStringCursor (content : String) (lineIndex charIndex : Nat) : Nat × Nat :=
  let split := jsSplitNewline content
  if split.length > 1 then
    (lineIndex + (split.length - 1), (split.getLastD "").length)
  else
    (lineIndex, charIndex + content.length)

/-- Builds the `FoundBracket` pushed in `parseToken`:
`new FoundBracket(new vscode.Range(startPos, startPos.translate(0, content.length)), content)`. -/
def mkFoundBracket (lineIndex charIndex : Nat) (content : String) : FoundBracket :=
  { range := { startPos := { line := lineIndex, character := charIndex },
               endPos := { line := lineIndex, character := charIndex + content.length } },
    character := content }

/-- The bracket regular expression of the settings: an alternation of every
pair's open and close literal (`createRegex` with `exact = false`), so
`content.match(regex)` is truthy iff some literal occurs as a substring of
`content`.  `settings.ts` stores it as `regexNonExact`; `documentDecoration.ts`
reads it as `settings.regexPattern`. -/
def regexMatches (literals : List String) (content : String) : Bool :=
  literals.any fun l =>
    (List.range (content.length + 1)).any fun i =>
      ((content.toList.drop i).take l.length) = l.toList

/- `parseTokenOrStringArray` / `parseToken` of `documentDecoration.ts`,
threading the cursor and the `positions` array (a JS array mutated by `push`;
here passed and returned).  `marker` is the live value of
`this.lineToUpdateWhenTimeoutEnds` read inside `parseToken`; `literals` are
the bracket literals behind the settings regex. -/
mutual
def parseTokenOrStringArray (marker : JSNum) (literals : List String)
    (tokenized : List PrismTokOrStr) (lineIndex charIndex : Nat)
    (positions : List FoundBracket) : Nat × Nat × List FoundBracket :=
  match tokenized with
  | [] => (lineIndex, charIndex, positions)
  | .tok t :: rest =>
      let r := parseToken marker literals t lineIndex charIndex positions
      parseTokenOrStringArray marker literals rest r.1 r.2.1 r.2.2
  | .str s :: rest =>
      let r := parseStringCursor s lineIndex charIndex
      parseTokenOrStringArray marker literals rest r.1 r.2 positions

def parseToken (marker : JSNum) (literals : List String)
    (token : PrismToken) (lineIndex charIndex : Nat)
    (positions : List FoundBracket) : Nat × Nat × List FoundBracket :=
  match token with
  | .mk ty (.str content) =>
      let positions' :=
        if ty = "punctuation" ∧ (JSNum.natGe lineIndex marker ∧
            regexMatches literals content = true) then
          positions ++ [mkFoundBracket lineIndex charIndex content]
        else positions
      let r := parseStringCursor content lineIndex charIndex
      (r.1, r.2, positions')
  | .mk _ (.arr xs) =>
      parseTokenOrStringArray marker literals xs lineIndex charIndex positions
  | .mk _ (.tok inner) =>
      match inner with
      | .mk _ (.arr ys) =>
          parseTokenOrStringArray marker literals ys lineIndex charIndex positions
      | .mk ity (.str c) =>
          parseToken marker literals (.mk ity (.str c)) lineIndex charIndex positions
      | .mk ity (.tok t2) =>
          parseToken marker literals (.mk ity (.tok t2)) lineIndex charIndex positions
end

/-- Modelled from the spec: `bracketPair.ts` is not under `src/`; per the
spec's PairDefinition and the constructor calls in `settings.ts`, a pair is
an open literal, a close literal, a colour palette and an orphan colour. -/
structure BracketPair where
  openCharacter : String
  closeCharacter : String
  colors : List String
  orphanColor : String
deriving DecidableEq, Repr

/-- A `vscode.TextEditorDecorationType`: an opaque object; modelled by the
order in which `createTextEditorDecorationType` was called. -/
abbrev Decoration := Nat

/-- Association-list lookup with JS `Map.get` semantics. -/
def mapGet (m : List (String × α)) (k : String) : Option α :=
  match m with
  | [] => none
  | (k', v) :: rest => if k' = k then some v else mapGet rest k

/-- JS `Map.set`: update in place when the key exists (keeping its insertion
position), otherwise append. -/
def mapSet (m : List (String × α)) (k : String) (v : α) : List (String × α) :=
  match m with
  | [] => [(k, v)]
  | (k', v') :: rest =>
      if k' = k then (k', v) :: rest else (k', v') :: mapSet rest k v

/-- `Settings.createBracketDecorations`: one decoration per palette colour of
every pair, then one per pair's orphan colour, keyed by colour in a JS `Map`.
The counter supplies the identity of each created decoration object. -/
def createBracketDecorationsAux (pairs : List BracketPair)
    (acc : List (String × Decoration)) (counter : Nat) :
    List (String × Decoration) × Nat :=
  match pairs with
  | [] => (acc, counter)
  | bp :: rest =>
      let step := bp.colors.foldl
        (fun (s : List (String × Decoration) × Nat) color =>
          (mapSet s.1 color s.2, s.2 + 1)) (acc, counter)
      let withOrphan := (mapSet step.1 bp.orphanColor step.2, step.2 + 1)
      createBracketDecorationsAux rest withOrphan.1 withOrphan.2

def createBracketDecorations (pairs : List BracketPair) :
    List (String × Decoration) :=
  (createBracketDecorationsAux pairs [] 0).1

/-- Every colour known to the configuration: the palette colours and the
orphan colour of every pair (the keys `createBracketDecorations` inserts). -/
def configuredColors (pairs : List BracketPair) : List String :=
  pairs.flatMap fun bp => bp.colors ++ [bp.orphanColor]

/-- The engine-level `Settings` fields `documentDecoration.ts` consumes. -/
structure Settings where
  bracketPairs : List BracketPair
  timeOutLength : Int
  isDisposed : Bool
deriving DecidableEq, Repr

/-- The literals fed into the settings regex (`createRegex` collects every
pair's open and close character; it sorts them longest-first, which does not
change which strings the alternation matches, so the sort is omitted here). -/
def Settings.regexLiterals (s : Settings) : List String :=
  s.bracketPairs.flatMap fun bp => [bp.openCharacter, bp.closeCharacter]

/-- `settings.bracketDecorations`, computed in the constructor. -/
def Settings.bracketDecorations (s : Settings) : List (String × Decoration) :=
  createBracketDecorations s.bracketPairs

/-- An entry on the shared matching stack: the pair definition it came from
and the colour assigned when it was pushed. -/
structure StackEntry where
  pairIndex : Nat
  color : String
deriving DecidableEq, Repr

/-- Modelled from the spec: `textLine.ts` is not under `src/`.  Per the
spec's LineState a line holds its index, the matching-stack carried through
it, and the colour → ranges assigned on that line (a JS `Map`).  The text is
the line's content handed to the constructor. -/
structure TextLine where
  index : Nat
  text : String
  bracketStack : List StackEntry
  colorRanges : List (String × List Range)
deriving DecidableEq, Repr

/-- Modelled from the spec: the TextLine constructor
`new TextLine(text, settings, index, previousLine.copyMultilineContext())`;
the carried-in stack is the previous line's carried-out stack (empty for the
first line). -/
def TextLine.make (text : String) (index : Nat)
    (context : List StackEntry := []) : TextLine :=
  { index := index, text := text, bracketStack := context, colorRanges := [] }

/-- Modelled from the spec: `copyMultilineContext` snapshots the carry-over
stack passed to the next line. -/
def TextLine.copyMultilineContext (tl : TextLine) : List StackEntry :=
  tl.bracketStack

/-- First pair whose open or close literal equals the bracket text
(spec §4.3: literal collision resolves to the first-registered definition). -/
def resolvePair (pairs : List BracketPair) (ch : String) : Option (Nat × BracketPair) :=
  pairs.enum.find? fun p => p.2.openCharacter = ch ∨ p.2.closeCharacter = ch

/-- Record a range under a colour in the line's colour map. -/
def addColorRange (m : List (String × List Range)) (color : String) (r : Range) :
    List (String × List Range) :=
  match mapGet m color with
  | some rs => mapSet m color (rs ++ [r])
  | none => mapSet m color [r]

/-- Modelled from the spec: `TextLine.addBracket` — the Bracket Matcher and
Colour Assigner of spec §4.3 in Consecutive mode with both optional flags
false (the default): an open bracket pushes onto the shared stack and takes
`palette[(depth−1) mod P]`; a close bracket pops, taking the popped entry's
colour, or its own definition's orphan colour when the stack is empty or the
popped entry belongs to a different definition.  Text matching no configured
literal adds nothing. -/
def TextLine.addBracket (pairs : List BracketPair) (tl : TextLine)
    (fb : FoundBracket) : TextLine :=
  match resolvePair pairs fb.character with
  | none => tl
  | some (idx, bp) =>
      if bp.openCharacter = fb.character then
        let color := bp.colors.getD (tl.bracketStack.length % bp.colors.length) ""
        { tl with
          bracketStack := { pairIndex := idx, color := color } :: tl.bracketStack,
          colorRanges := addColorRange tl.colorRanges color fb.range }
      else
        match tl.bracketStack with
        | [] =>
            { tl with colorRanges := addColorRange tl.colorRanges bp.orphanColor fb.range }
        | top :: rest =>
            if top.pairIndex = idx then
              { tl with bracketStack := rest,
                        colorRanges := addColorRange tl.colorRanges top.color fb.range }
            else
              { tl with colorRanges := addColorRange tl.colorRanges bp.orphanColor fb.range }

instance : Inhabited TextLine := ⟨TextLine.make "" 0⟩

/-- A document: the text of each of its lines (`document.lineAt(i).text`);
`document.getText()` joins them with newlines. -/
abbrev Document := List String

def Document.getText (doc : Document) : String :=
  String.intercalate "\n" doc

def Document.lineAt (doc : Document) (i : Nat) : String :=
  doc.getD i ""

/-- The mutable state of a `DocumentDecoration` object.  `nextTimerId` is
model bookkeeping giving each `setTimeout` call a fresh identity. -/
structure DocState where
  lineToUpdateWhenTimeoutEnds : JSNum
  lines : List TextLine
  updateDecorationTimeout : Option Nat
  nextTimerId : Nat
deriving DecidableEq, Repr

/-- The field initializers of `DocumentDecoration`:
`lineToUpdateWhenTimeoutEnds = 0`, `lines = []`, no pending timeout. -/
def DocState.initial : DocState :=
  { lineToUpdateWhenTimeoutEnds := .fin 0, lines := [],
    updateDecorationTimeout := none, nextTimerId := 0 }

/-- The appending loop of `getLine`: add `count` lines past the current end,
each seeded with the previous line's multiline context. -/
def extendLines (doc : Document) (lines : List TextLine) (count : Nat) :
    List TextLine :=
  match count with
  | 0 => lines
  | Nat.succ k =>
      let prev := lines.getLastD default
      let newLine := TextLine.make (doc.lineAt lines.length) lines.length
        prev.copyMultilineContext
      extendLines doc (lines ++ [newLine]) k

/-- `getLine`'s effect on the `lines` array: in bounds it changes nothing;
otherwise the array is grown to cover `index` (the first line, when the
array is empty, is built without a multiline context). -/
def growLines (doc : Document) (lines : List TextLine) (index : Nat) :
    List TextLine :=
  if index < lines.length then lines
  else
    let base := if lines.length = 0 then [TextLine.make (doc.lineAt 0) 0] else lines
    extendLines doc base (index + 1 - base.length)

/-- Replace the element at `i` by `f` of it (JS object mutation through the
reference `getLine` returned). -/
def modifyAt (lines : List TextLine) (i : Nat) (f : TextLine → TextLine) :
    List TextLine :=
  match lines, i with
  | [], _ => []
  | l :: rest, 0 => f l :: rest
  | l :: rest, Nat.succ j => l :: modifyAt rest j f

/-- The body of `positions.forEach`: `getLine(element.range.start.line)` then
`currentLine.addBracket(element)` — `getLine` always hands back the array
slot at the bracket's line, which `addBracket` mutates. -/
def applyBracket (doc : Document) (pairs : List BracketPair)
    (lines : List TextLine) (fb : FoundBracket) : List TextLine :=
  let grown := growLines doc lines fb.range.startPos.line
  modifyAt grown fb.range.startPos.line fun tl => tl.addBracket pairs fb

/-- `this.lines.splice(lineNumber, this.lines.length - lineNumber)`: removes
every cached line at or above the marker (removes nothing when the marker is
`Infinity` or past the end). -/
def spliceFrom (m : JSNum) (lines : List TextLine) : List TextLine :=
  match m with
  | .fin n => lines.take n
  | .inf => lines

/-- What one call to `updateDecorations` produced: the colour → ranges lists
handed to `setDecorations` (`none` when the pass aborted before
`colorDecorations`), and whether `console.warn` ran. -/
structure PassOut where
  emissions : Option (List (String × List Range))
  warned : Bool
deriving DecidableEq, Repr

def PassOut.none' : PassOut := { emissions := none, warned := false }

/-- The colour map reduction in `colorDecorations`: merge every line's
`colorRanges` into one JS `Map`, appending ranges for already-present
colours. -/
def buildColorMap (lines : List TextLine) : List (String × List Range) :=
  lines.foldl
    (fun m tl =>
      tl.colorRanges.foldl
        (fun m cr =>
          match mapGet m cr.1 with
          | some ex => mapSet m cr.1 (ex ++ cr.2)
          | none => mapSet m cr.1 cr.2)
        m)
    []

/-- The emission loop of `colorDecorations`: for every entry of
`settings.bracketDecorations` in map order, skip the empty-string colour,
else set the colour's collected ranges (an empty array when the colour map
has none, invalidating stale decorations). -/
def colorEmissions (s : Settings) (lines : List TextLine) :
    List (String × List Range) :=
  let colorMap := buildColorMap lines
  s.bracketDecorations.filterMap fun cd =>
    if cd.1 = "" then none
    else some (cd.1, (mapGet colorMap cd.1).getD [])

/-- `updateDecorations`: abort when no editor shows the document; truncate
the line cache from the marker; tokenize the whole text (the tokenizer is a
function parameter standing for `prism.tokenize`, erroring when it throws);
on success collect bracket positions, add each to its line, emit the colour
map and reset the marker to `Infinity`; on failure warn and abort with the
marker untouched. -/
def updateDecorations (tokenize : String → Except String (List PrismTokOrStr))
    (hasEditor : Bool) (doc : Document) (s : Settings) (st : DocState) :
    DocState × PassOut :=
  if !hasEditor then (st, { emissions := none, warned := true })
  else
    let lineNumber := st.lineToUpdateWhenTimeoutEnds
    let lines0 := spliceFrom lineNumber st.lines
    match tokenize doc.getText with
    | .error _ =>
        ({ st with lines := lines0 }, { emissions := none, warned := true })
    | .ok tokenized =>
        let parsed := parseTokenOrStringArray lineNumber s.regexLiterals tokenized 0 0 []
        let lines1 := parsed.2.2.foldl (applyBracket doc s.bracketPairs) lines0
        ({ st with lines := lines1, lineToUpdateWhenTimeoutEnds := .inf },
         { emissions := some (colorEmissions s lines1), warned := false })

/-- `updateLowestLineNumber`: lower the marker to the minimum of its current
value and each change's starting line. -/
def updateLowestLineNumber (changes : List Nat) (st : DocState) : DocState :=
  { st with lineToUpdateWhenTimeoutEnds :=
      changes.foldl JSNum.minNat st.lineToUpdateWhenTimeoutEnds }

/-- `triggerUpdateDecorations`: do nothing when disposed; with a positive
`timeOutLength`, cancel any pending timeout and schedule a fresh one;
otherwise run `updateDecorations` synchronously. -/
def triggerUpdateDecorations (tokenize : String → Except String (List PrismTokOrStr))
    (hasEditor : Bool) (doc : Document) (s : Settings) (st : DocState) :
    DocState × PassOut :=
  if s.isDisposed then (st, PassOut.none')
  else if s.timeOutLength > 0 then
    ({ st with updateDecorationTimeout := some st.nextTimerId,
               nextTimerId := st.nextTimerId + 1 },
     PassOut.none')
  else updateDecorations tokenize hasEditor doc s st

/-- `onDidChangeTextDocument`: record the lowest dirtied line, then trigger. -/
def onDidChangeTextDocument (tokenize : String → Except String (List PrismTokOrStr))
    (hasEditor : Bool) (doc : Document) (s : Settings) (changes : List Nat)
    (st : DocState) : DocState × PassOut :=
  triggerUpdateDecorations tokenize hasEditor doc s (updateLowestLineNumber changes st)

/-- The timeout callback: run `updateDecorations` when the timer fires. -/
def fireTimeout (tokenize : String → Except String (List PrismTokOrStr))
    (hasEditor : Bool) (doc : Document) (s : Settings) (st : DocState) :
    DocState × PassOut :=
  updateDecorations tokenize hasEditor doc s st

/-- An untyped JavaScript configuration value, as handed to the `Settings`
constructor by `configuration.get` (`null` also stands for `undefined`:
both fail the same `typeof`/`Array.isArray` tests made here). -/
inductive JSValue where
  | str : String → JSValue
  | num : Int → JSValue
  | jsBool : Bool → JSValue
  | arr : List JSValue → JSValue
  | null : JSValue

/-- A bracket pair exactly as `new BracketPair(brackets[0], brackets[1],
colors, orphanColor)` receives it in the constructor: the two bracket
elements are whatever values the config held. -/
structure RawBracketPair where
  openC : JSValue
  closeC : JSValue
  colors : List JSValue
  orphanColor : String

/-- JS `s[0]` on a string: the one-character substring at that index. -/
def jsCharAt (s : String) (i : Nat) : String :=
  String.singleton (s.toList.getD i ' ')

/-- One entry of the `consecutiveSettings.slice(0, len-2).forEach` loop:
strings and arrays require exactly 2 elements, anything else is an error. -/
def parseConsecutiveEntry (colors : List JSValue) (orphanColor : String)
    (index : Nat) (brackets : JSValue) : Except String RawBracketPair :=
  match brackets with
  | .str sb =>
      if sb.length ≠ 2 then
        .error ("consecutivePairColors[" ++ toString index
          ++ "] requires 2 element, e.g. ['(',')']")
      else
        .ok { openC := .str (jsCharAt sb 0), closeC := .str (jsCharAt sb 1),
              colors := colors, orphanColor := orphanColor }
  | .arr ab =>
      if ab.length ≠ 2 then
        .error ("consecutivePairColors[" ++ toString index
          ++ "] requires 2 element, e.g. ['(',')']")
      else
        .ok { openC := ab.getD 0 .null, closeC := ab.getD 1 .null,
              colors := colors, orphanColor := orphanColor }
  | _ =>
      .error ("consecutivePairColors[ " ++ toString index
        ++ "] should be a string or an array of strings")

/-- The `consecutivePairColors` validation of the `Settings` constructor
(the `ColorMode.Consecutive` branch). -/
def parseConsecutivePairColors (v : JSValue) : Except String (List RawBracketPair) :=
  match v with
  | .arr consecutiveSettings =>
      if consecutiveSettings.length < 3 then
        .error ("consecutivePairColors expected at least 3 parameters, actual: "
          ++ toString consecutiveSettings.length)
      else
        match consecutiveSettings.getD (consecutiveSettings.length - 1) .null with
        | .str orphanColor =>
            match consecutiveSettings.getD (consecutiveSettings.length - 2) .null with
            | .arr colors =>
                (consecutiveSettings.take (consecutiveSettings.length - 2)).enum.mapM
                  fun p => parseConsecutiveEntry colors orphanColor p.1 p.2
            | _ =>
                .error ("consecutivePairColors["
                  ++ toString (consecutiveSettings.length - 2) ++ "] is not a string[]")
        | _ =>
            .error ("consecutivePairColors["
              ++ toString (consecutiveSettings.length - 1) ++ "] is not a string")
  | _ => .error "consecutivePairColors is not an array"

/-- One entry of the `independentSettings.forEach` loop. -/
def parseIndependentEntry (index : Nat) (innerArray : JSValue) :
    Except String RawBracketPair :=
  match innerArray with
  | .arr inner =>
      let brackets := inner.getD 0 .null
      match brackets with
      | .str sb =>
          if sb.length < 2 then
            .error ("independentSettings[" ++ toString index
              ++ "][0] needs at least 2 elements")
          else
            match inner.getD 1 .null with
            | .arr colors =>
                match inner.getD 2 .null with
                | .str orphanColor =>
                    .ok { openC := .str (jsCharAt sb 0), closeC := .str (jsCharAt sb 1),
                          colors := colors, orphanColor := orphanColor }
                | _ => .error ("independentSettings[" ++ toString index
                    ++ "][2] is not a string")
            | _ => .error ("independentSettings[" ++ toString index
                ++ "][1] is not string[]")
      | .arr ab =>
          if ab.length < 2 then
            .error ("independentSettings[" ++ toString index
              ++ "][0] needs at least 2 elements")
          else
            match inner.getD 1 .null with
            | .arr colors =>
                match inner.getD 2 .null with
                | .str orphanColor =>
                    .ok { openC := ab.getD 0 .null, closeC := ab.getD 1 .null,
                          colors := colors, orphanColor := orphanColor }
                | _ => .error ("independentSettings[" ++ toString index
                    ++ "][2] is not a string")
            | _ => .error ("independentSettings[" ++ toString index
                ++ "][1] is not string[]")
      | _ =>
          .error ("independentSettings[" ++ toString index
            ++ "][0] is not a string or an array of strings")
  | _ => .error ("independentPairColors[" ++ toString index ++ "] is not an array")

/-- The `independentPairColors` validation of the `Settings` constructor
(the non-Consecutive branch). -/
def parseIndependentPairColors (v : JSValue) : Except String (List RawBracketPair) :=
  match v with
  | .arr independentSettings =>
      independentSettings.enum.mapM fun p => parseIndependentEntry p.1 p.2
  | _ => .error "independentPairColors is not an array"

/-- A sample configuration: one `()` pair, palette `["gold", "orchid"]`,
orphan colour `"red"`, no debounce delay. -/
def sampleSettings : Settings :=
  { bracketPairs := [{ openCharacter := "(", closeCharacter := ")",
                       colors := ["gold", "orchid"], orphanColor := "red" }],
    timeOutLength := 0, isDisposed := false }

/-- A configuration whose palette contains the empty string. -/
def emptyColorSettings : Settings :=
  { bracketPairs := [{ openCharacter := "(", closeCharacter := ")",
                       colors := [""], orphanColor := "orange" }],
    timeOutLength := 0, isDisposed := false }

/-- A tokenizer that always fails, as `prism.tokenize` throwing. -/
def failingTokenizer : String → Except String (List PrismTokOrStr) :=
  fun _ => .error "unsupported grammar"

/-- A tokenizer returning no tokens, as `prism.tokenize` on empty text. -/
def emptyTokenizer : String → Except String (List PrismTokOrStr) :=
  fun _ => .ok []

/-- A tokenizer for the one-line document `"(()"` under a prism grammar
emitting each bracket as a punctuation token. -/
def parenTokenizer : String → Except String (List PrismTokOrStr) :=
  fun _ => .ok [.tok (.mk "punctuation" (.str "(")),
                .tok (.mk "punctuation" (.str "(")),
                .tok (.mk "punctuation" (.str ")"))]

/-- Like `sampleSettings` but with a 100 ms debounce delay. -/
def debounceSettings : Settings :=
  { sampleSettings with timeOutLength := 100 }

/-- A document-decoration state mid-session: two cached lines and an edit at
line 1 already recorded in the marker, with a timer pending. -/
def midSessionState : DocState :=
  { lineToUpdateWhenTimeoutEnds := .fin 1,
    lines := [TextLine.make "(" 0, TextLine.make ")" 1 [{ pairIndex := 0, color := "gold" }]],
    updateDecorationTimeout := some 0,
    nextTimerId := 1 }

/-! ### Lemmas -/

mutual
theorem parseList_marker (m : JSNum) (lits : List String) (toks : List PrismTokOrStr)
    (li ci : Nat) (acc : List FoundBracket) :
    ∀ fb ∈ (parseTokenOrStringArray m lits toks li ci acc).2.2,
      fb ∈ acc ∨ JSNum.natGe fb.range.startPos.line m = true := by
  intro fb hfb
  cases toks with
  | nil =>
      simp only [parseTokenOrStringArray] at hfb
      exact Or.inl hfb
  | cons head rest =>
      cases head with
      | tok t =>
          simp only [parseTokenOrStringArray] at hfb
          rcases parseList_marker m lits rest _ _ _ _ hfb with h | h
          · rcases parseToken_marker m lits t li ci acc _ h with h' | h'
            · exact Or.inl h'
            · exact Or.inr h'
          · exact Or.inr h
      | str s =>
          simp only [parseTokenOrStringArray] at hfb
          exact parseList_marker m lits rest _ _ _ _ hfb

theorem parseToken_marker (m : JSNum) (lits : List String) (t : PrismToken)
    (li ci : Nat) (acc : List FoundBracket) :
    ∀ fb ∈ (parseToken m lits t li ci acc).2.2,
      fb ∈ acc ∨ JSNum.natGe fb.range.startPos.line m = true := by
  intro fb hfb
  match t with
  | .mk ty (.str content) =>
      simp only [parseToken] at hfb
      split at hfb
      · next hcond =>
          rcases List.mem_append.1 hfb with h | h
          · exact Or.inl h
          · simp only [List.mem_singleton] at h
            subst h
            exact Or.inr hcond.2.1
      · exact Or.inl hfb
  | .mk ty (.arr xs) =>
      simp only [parseToken] at hfb
      exact parseList_marker m lits xs li ci acc _ hfb
  | .mk ty (.tok (.mk ity (.arr ys))) =>
      simp only [parseToken] at hfb
      exact parseList_marker m lits ys li ci acc _ hfb
  | .mk ty (.tok (.mk ity (.str c))) =>
      simp only [parseToken] at hfb
      exact parseToken_marker m lits (.mk ity (.str c)) li ci acc _ hfb
  | .mk ty (.tok (.mk ity (.tok t2))) =>
      simp only [parseToken] at hfb
      exact parseToken_marker m lits (.mk ity (.tok t2)) li ci acc _ hfb
end

/-- With the marker at `Infinity` (after a completed pass) no position at all
is recorded: no line index satisfies `lineIndex >= Infinity`. -/
theorem parseList_inf_no_positions (lits : List String) (toks : List PrismTokOrStr)
    (li ci : Nat) : (parseTokenOrStringArray .inf lits toks li ci []).2.2 = [] := by
  rw [List.eq_nil_iff_forall_not_mem]
  intro fb hfb
  rcases parseList_marker .inf lits toks li ci [] fb hfb with h | h
  · exact List.not_mem_nil fb h
  · simp [JSNum.natGe] at h


theorem JSNum.le_refl (a : JSNum) : a.le a := by cases a <;> simp [JSNum.le]

theorem JSNum.le_trans {a b c : JSNum} (h1 : a.le b) (h2 : b.le c) : a.le c := by
  cases a <;> cases b <;> cases c <;> simp_all [JSNum.le] <;> omega

theorem JSNum.minNat_le (m : JSNum) (n : Nat) : (m.minNat n).le m := by
  cases m <;> simp [JSNum.minNat, JSNum.le]

theorem foldl_minNat_le (changes : List Nat) (m : JSNum) :
    (changes.foldl JSNum.minNat m).le m := by
  induction changes generalizing m with
  | nil => exact JSNum.le_refl m
  | cons c rest ih =>
      exact JSNum.le_trans (ih (m.minNat c)) (JSNum.minNat_le m c)

theorem mapGet_mapSet_self {α : Type} (m : List (String × α)) (k : String) (v : α) :
    mapGet (mapSet m k v) k = some v := by
  induction m with
  | nil => simp [mapGet, mapSet]
  | cons p rest ih =>
      by_cases h : p.1 = k
      · simp [mapGet, mapSet, h]
      · simp [mapGet, mapSet, h, ih]

theorem mapGet_mapSet_preserve {α : Type} (m : List (String × α)) (k c : String) (v : α)
    (h : (mapGet m c).isSome) : (mapGet (mapSet m k v) c).isSome := by
  induction m with
  | nil => simp [mapGet] at h
  | cons p rest ih =>
      obtain ⟨k', v'⟩ := p
      simp only [mapGet] at h
      by_cases hk : k' = k
      · subst hk
        by_cases hc : k' = c
        · subst hc
          simp [mapGet, mapSet]
        · simp only [hc, if_false] at h
          simp [mapGet, mapSet, hc]
          exact h
      · by_cases hc : k' = c
        · subst hc
          simp [mapGet, mapSet, hk]
        · simp only [hc, if_false] at h
          simp [mapGet, mapSet, hk, hc]
          exact ih h

theorem mapGet_eq_some_mem {α : Type} (m : List (String × α)) (c : String) (v : α)
    (h : mapGet m c = some v) : (c, v) ∈ m := by
  induction m with
  | nil => simp [mapGet] at h
  | cons p rest ih =>
      obtain ⟨k', v'⟩ := p
      by_cases hc : k' = c
      · subst hc
        simp [mapGet] at h
        subst h
        exact List.mem_cons_self _ _
      · simp [mapGet, hc] at h
        exact List.mem_cons_of_mem _ (ih h)

theorem configuredColors_cons (bp : BracketPair) (rest : List BracketPair) (c : String) :
    c ∈ configuredColors (bp :: rest) ↔
      (c ∈ bp.colors ∨ c = bp.orphanColor) ∨ c ∈ configuredColors rest := by
  simp [configuredColors, or_assoc]

theorem colorsFold_preserve (colors : List String)
    (s0 : List (String × Decoration) × Nat) (c : String)
    (h : (mapGet s0.1 c).isSome) :
    (mapGet (colors.foldl
        (fun (s : List (String × Decoration) × Nat) color =>
          (mapSet s.1 color s.2, s.2 + 1)) s0).1 c).isSome := by
  induction colors generalizing s0 with
  | nil => exact h
  | cons col rest ih =>
      exact ih _ (mapGet_mapSet_preserve _ _ _ _ h)

theorem colorsFold_mem (colors : List String)
    (s0 : List (String × Decoration) × Nat) (c : String) (hc : c ∈ colors) :
    (mapGet (colors.foldl
        (fun (s : List (String × Decoration) × Nat) color =>
          (mapSet s.1 color s.2, s.2 + 1)) s0).1 c).isSome := by
  induction colors generalizing s0 with
  | nil => simp at hc
  | cons col rest ih =>
      rcases List.mem_cons.1 hc with h | h
      · subst h
        simp only [List.foldl_cons]
        apply colorsFold_preserve
        rw [mapGet_mapSet_self]
        rfl
      · simp only [List.foldl_cons]
        exact ih _ h

theorem createAux_mem (pairs : List BracketPair)
    (acc : List (String × Decoration)) (counter : Nat) (c : String)
    (h : c ∈ configuredColors pairs ∨ (mapGet acc c).isSome) :
    (mapGet (createBracketDecorationsAux pairs acc counter).1 c).isSome := by
  induction pairs generalizing acc counter with
  | nil =>
      rcases h with h | h
      · simp [configuredColors] at h
      · exact h
  | cons bp rest ih =>
      simp only [createBracketDecorationsAux]
      apply ih
      rcases h with h | h
      · rcases (configuredColors_cons bp rest c).1 h with h | h
        · rcases h with h | h
          · exact Or.inr (mapGet_mapSet_preserve _ _ _ _ (colorsFold_mem _ _ _ h))
          · subst h
            exact Or.inr (by rw [mapGet_mapSet_self]; rfl)
        · exact Or.inl h
      · exact Or.inr (mapGet_mapSet_preserve _ _ _ _ (colorsFold_preserve _ _ _ h))

theorem configured_mem_decorations (pairs : List BracketPair) (c : String)
    (h : c ∈ configuredColors pairs) :
    (mapGet (createBracketDecorations pairs) c).isSome :=
  createAux_mem pairs [] 0 c (Or.inl h)

theorem extendLines_getElem (doc : Document) (lines : List TextLine) (count i : Nat)
    (hi : i < lines.length) : (extendLines doc lines count)[i]? = lines[i]? := by
  induction count generalizing lines with
  | zero => rfl
  | succ k ih =>
      rw [extendLines]
      rw [ih _ (by simp; omega)]
      exact List.getElem?_append_left hi

theorem extendLines_length (doc : Document) (lines : List TextLine) (count : Nat) :
    (extendLines doc lines count).length = lines.length + count := by
  induction count generalizing lines with
  | zero => rfl
  | succ k ih =>
      rw [extendLines, ih]
      simp
      omega

theorem growLines_getElem (doc : Document) (lines : List TextLine) (index i : Nat)
    (hi : i < lines.length) : (growLines doc lines index)[i]? = lines[i]? := by
  rw [growLines]
  split
  · rfl
  · have hlen : ¬ lines.length = 0 := by omega
    simp only [if_neg hlen]
    exact extendLines_getElem doc lines _ i hi

theorem growLines_length (doc : Document) (lines : List TextLine) (index : Nat) :
    lines.length ≤ (growLines doc lines index).length := by
  rw [growLines]
  split
  · exact Nat.le_refl _
  · by_cases h0 : lines.length = 0
    · simp [h0, extendLines_length]
    · rw [if_neg h0, extendLines_length]
      omega

theorem modifyAt_getElem (lines : List TextLine) (j : Nat) (f : TextLine → TextLine)
    (i : Nat) (h : i ≠ j) : (modifyAt lines j f)[i]? = lines[i]? := by
  induction lines generalizing i j with
  | nil => rfl
  | cons l rest ih =>
      cases j with
      | zero =>
          cases i with
          | zero => exact absurd rfl h
          | succ i2 => simp [modifyAt]
      | succ j2 =>
          cases i with
          | zero => simp [modifyAt]
          | succ i2 =>
              simp only [modifyAt, List.getElem?_cons_succ]
              exact ih _ _ (by omega)

theorem modifyAt_length (lines : List TextLine) (j : Nat) (f : TextLine → TextLine) :
    (modifyAt lines j f).length = lines.length := by
  induction lines generalizing j with
  | nil => rfl
  | cons l rest ih =>
      cases j with
      | zero => rfl
      | succ j2 => simp [modifyAt, ih]

theorem applyBracket_getElem (doc : Document) (pairs : List BracketPair)
    (lines : List TextLine) (fb : FoundBracket) (i : Nat) (hi : i < lines.length)
    (hne : i ≠ fb.range.startPos.line) :
    (applyBracket doc pairs lines fb)[i]? = lines[i]? := by
  unfold applyBracket
  rw [modifyAt_getElem _ _ _ _ hne]
  exact growLines_getElem _ _ _ _ hi

theorem applyBracket_length (doc : Document) (pairs : List BracketPair)
    (lines : List TextLine) (fb : FoundBracket) :
    lines.length ≤ (applyBracket doc pairs lines fb).length := by
  unfold applyBracket
  rw [modifyAt_length]
  exact growLines_length _ _ _

theorem foldl_applyBracket_getElem (doc : Document) (pairs : List BracketPair)
    (positions : List FoundBracket) (lines : List TextLine) (i : Nat)
    (hi : i < lines.length)
    (hpos : ∀ fb ∈ positions, i ≠ fb.range.startPos.line) :
    (positions.foldl (applyBracket doc pairs) lines)[i]? = lines[i]? := by
  induction positions generalizing lines with
  | nil => rfl
  | cons fb rest ih =>
      simp only [List.foldl_cons]
      rw [ih _ (Nat.lt_of_lt_of_le hi (applyBracket_length doc pairs lines fb))
        (fun fb2 h2 => hpos fb2 (List.mem_cons_of_mem _ h2))]
      exact applyBracket_getElem doc pairs lines fb i hi
        (hpos fb (List.mem_cons_self _ _))


/-- C7: after an edit whose lowest touched line is `L`, the recomputation
pass replaces only cached per-line states at indices at or above `L`; every
cached line state strictly below `L` is unchanged by the pass. -/
theorem pass_preserves_lines_below_marker
    (tokenize : String → Except String (List PrismTokOrStr)) (doc : Document)
    (s : Settings) (st : DocState) (L : Nat)
    (hL : st.lineToUpdateWhenTimeoutEnds = .fin L) (i : Nat) (hiL : i < L)
    (hilen : i < st.lines.length) :
    ((updateDecorations tokenize true doc s st).1.lines)[i]? = st.lines[i]? := by
  simp only [updateDecorations, Bool.not_true, Bool.false_eq_true, if_false]
  rw [hL]
  cases htok : tokenize (Document.getText doc) with
  | error e =>
      simp only [spliceFrom]
      exact List.getElem?_take_of_lt hiL
  | ok toks =>
      simp only [spliceFrom]
      rw [foldl_applyBracket_getElem]
      · exact List.getElem?_take_of_lt hiL
      · rw [List.length_take]
        omega
      · intro fb hfb
        rcases parseList_marker (.fin L) s.regexLiterals toks 0 0 [] fb hfb with h | h
        · exact absurd h (List.not_mem_nil fb)
        · simp only [JSNum.natGe, decide_eq_true_eq] at h
          omega


theorem pass_preserves_lines_below_marker_witness :
    ((updateDecorations parenTokenizer true ["(()"] sampleSettings midSessionState).1.lines)[0]?
      = midSessionState.lines[0]? :=
  pass_preserves_lines_below_marker parenTokenizer ["(()"] sampleSettings
    midSessionState 1 rfl 0 (by decide) (by decide)

/-- C8: re-running the full pass on the same document content with the same
configuration hands the renderer identical colour-to-ranges assignments. -/
theorem pass_rerun_deterministic
    (tokenize : String → Except String (List PrismTokOrStr)) (doc : Document)
    (s : Settings) (st : DocState) (toks : List PrismTokOrStr)
    (h : tokenize (Document.getText doc) = .ok toks) :
    (updateDecorations tokenize true doc s
        (updateDecorations tokenize true doc s st).1).2.emissions
      = (updateDecorations tokenize true doc s st).2.emissions := by
  simp only [updateDecorations, Bool.not_true, Bool.false_eq_true, if_false, h]
  simp only [spliceFrom, parseList_inf_no_positions, List.foldl_nil]

theorem pass_rerun_deterministic_witness :
    (updateDecorations parenTokenizer true ["(()"] sampleSettings
        (updateDecorations parenTokenizer true ["(()"] sampleSettings DocState.initial).1).2.emissions
      = (updateDecorations parenTokenizer true ["(()"] sampleSettings DocState.initial).2.emissions :=
  pass_rerun_deterministic parenTokenizer ["(()"] sampleSettings DocState.initial _ rfl


/-- C9: during a recomputation pass a bracket occurrence is recorded only
when its line index is at or above the current dirty-line marker. -/
theorem bracket_recorded_only_at_or_above_marker (marker : JSNum)
    (literals : List String) (tokenized : List PrismTokOrStr) (fb : FoundBracket)
    (hfb : fb ∈ (parseTokenOrStringArray marker literals tokenized 0 0 []).2.2) :
    JSNum.natGe fb.range.startPos.line marker = true := by
  rcases parseList_marker marker literals tokenized 0 0 [] fb hfb with h | h
  · exact absurd h (List.not_mem_nil fb)
  · exact h

theorem bracket_recorded_only_at_or_above_marker_witness :
    JSNum.natGe (mkFoundBracket 1 0 "(").range.startPos.line (.fin 1) = true :=
  bracket_recorded_only_at_or_above_marker (.fin 1) ["("]
    [.str "x\n", .tok (.mk "punctuation" (.str "("))] (mkFoundBracket 1 0 "(")
    (by simp only [parseTokenOrStringArray, parseToken]; decide)

/-- C2: when tokenization throws, the error is caught (only a warning is
logged), the pass aborts before any decorations are emitted — leaving the
previously rendered state untouched — and the dirty-line marker keeps its
value instead of being reset. -/
theorem tokenizer_failure_aborts_without_reset
    (tokenize : String → Except String (List PrismTokOrStr)) (doc : Document)
    (s : Settings) (st : DocState) (e : String)
    (h : tokenize (Document.getText doc) = .error e) :
    (updateDecorations tokenize true doc s st).2.emissions = none
    ∧ (updateDecorations tokenize true doc s st).2.warned = true
    ∧ (updateDecorations tokenize true doc s st).1.lineToUpdateWhenTimeoutEnds
        = st.lineToUpdateWhenTimeoutEnds := by
  simp only [updateDecorations, Bool.not_true, Bool.false_eq_true, if_false, h]
  exact ⟨trivial, trivial, trivial⟩

theorem tokenizer_failure_aborts_without_reset_witness :
    (updateDecorations failingTokenizer true [""] sampleSettings midSessionState).2.emissions = none
    ∧ (updateDecorations failingTokenizer true [""] sampleSettings midSessionState).2.warned = true
    ∧ (updateDecorations failingTokenizer true [""] sampleSettings midSessionState).1.lineToUpdateWhenTimeoutEnds
        = midSessionState.lineToUpdateWhenTimeoutEnds :=
  tokenizer_failure_aborts_without_reset failingTokenizer [""] sampleSettings
    midSessionState "unsupported grammar" rfl

/-- C1 counterexample: the marker is initialized to `0` — a valid line
index satisfying `lineIndex >= marker` for line 0 — not to a sentinel lying
beyond every valid line index. -/
theorem marker_initialized_to_zero :
    DocState.initial.lineToUpdateWhenTimeoutEnds = JSNum.fin 0
    ∧ DocState.initial.lineToUpdateWhenTimeoutEnds ≠ JSNum.inf
    ∧ JSNum.natGe 0 DocState.initial.lineToUpdateWhenTimeoutEnds = true := by
  exact ⟨rfl, by decide, rfl⟩

/-- C1 (amended): the marker starts at `0` (making the first pass analyze
from the top); each edit notification lowers it to the minimum of its
current value and the edit's starting line and never raises it; and a
completed pass resets it to the `Infinity` sentinel beyond every line. -/
theorem marker_lifecycle :
    DocState.initial.lineToUpdateWhenTimeoutEnds = JSNum.fin 0
    ∧ (∀ st l, (updateLowestLineNumber [l] st).lineToUpdateWhenTimeoutEnds
        = st.lineToUpdateWhenTimeoutEnds.minNat l)
    ∧ (∀ st changes,
        ((updateLowestLineNumber changes st).lineToUpdateWhenTimeoutEnds).le
          st.lineToUpdateWhenTimeoutEnds)
    ∧ (∀ tokenize doc s st toks,
        tokenize (Document.getText doc) = Except.ok toks →
        (updateDecorations tokenize true doc s st).1.lineToUpdateWhenTimeoutEnds
          = JSNum.inf) := by
  refine ⟨rfl, fun st l => rfl, fun st changes => foldl_minNat_le changes _, ?_⟩
  intro tokenize doc s st toks h
  simp only [updateDecorations, Bool.not_true, Bool.false_eq_true, if_false, h]

theorem marker_lifecycle_witness :
    (updateDecorations emptyTokenizer true [""] sampleSettings
        DocState.initial).1.lineToUpdateWhenTimeoutEnds = JSNum.inf :=
  marker_lifecycle.2.2.2 emptyTokenizer [""] sampleSettings DocState.initial [] rfl

/-- C6: with a zero debounce delay the recomputation runs synchronously on
trigger; with a positive delay the trigger only schedules a fresh timer
(cancelling any pending one — the fresh timer differs from it), and the
already-lowered marker, line cache and rendered state are all untouched. -/
theorem debounce_zero_sync_positive_defers
    (tokenize : String → Except String (List PrismTokOrStr)) (hasEditor : Bool)
    (doc : Document) (s : Settings) (st : DocState)
    (hdisp : s.isDisposed = false) :
    (s.timeOutLength = 0 →
      triggerUpdateDecorations tokenize hasEditor doc s st
        = updateDecorations tokenize hasEditor doc s st)
    ∧ (0 < s.timeOutLength →
      (triggerUpdateDecorations tokenize hasEditor doc s st).1.updateDecorationTimeout
          = some st.nextTimerId
      ∧ ((∀ t0, st.updateDecorationTimeout = some t0 → t0 < st.nextTimerId) →
          st.updateDecorationTimeout ≠ some st.nextTimerId)
      ∧ (triggerUpdateDecorations tokenize hasEditor doc s st).1.lineToUpdateWhenTimeoutEnds
          = st.lineToUpdateWhenTimeoutEnds
      ∧ (triggerUpdateDecorations tokenize hasEditor doc s st).1.lines = st.lines
      ∧ (triggerUpdateDecorations tokenize hasEditor doc s st).2 = PassOut.none') := by
  constructor
  · intro h0
    simp [triggerUpdateDecorations, hdisp, h0]
  · intro hpos
    have hgt : s.timeOutLength > 0 := hpos
    refine ⟨?_, ?_, ?_, ?_, ?_⟩ <;>
      simp [triggerUpdateDecorations, hdisp, hgt]
    intro hfresh heq
    exact absurd (hfresh _ heq) (Nat.lt_irrefl _)

theorem debounce_zero_sync_positive_defers_witness :
    ((triggerUpdateDecorations parenTokenizer true ["(()"] debounceSettings
        midSessionState).1.updateDecorationTimeout = some midSessionState.nextTimerId)
    ∧ midSessionState.updateDecorationTimeout ≠ some midSessionState.nextTimerId := by
  have h := (debounce_zero_sync_positive_defers parenTokenizer true ["(()"]
    debounceSettings midSessionState rfl).2 (by decide)
  exact ⟨h.1, h.2.1 (by decide)⟩


theorem mem_colorEmissions (s : Settings) (lines : List TextLine) (c : String)
    (hc : c ∈ configuredColors s.bracketPairs) (hne : c ≠ "") :
    (c, (mapGet (buildColorMap lines) c).getD []) ∈ colorEmissions s lines := by
  have h1 := configured_mem_decorations s.bracketPairs c hc
  obtain ⟨d, hd⟩ := Option.isSome_iff_exists.1 h1
  have hmem : (c, d) ∈ s.bracketDecorations := mapGet_eq_some_mem _ _ _ hd
  unfold colorEmissions
  exact List.mem_filterMap.2 ⟨(c, d), hmem, by simp [hne]⟩

theorem updateDecorations_emissions_shape
    (tokenize : String → Except String (List PrismTokOrStr)) (doc : Document)
    (s : Settings) (st : DocState) (m : List (String × List Range))
    (h : (updateDecorations tokenize true doc s st).2.emissions = some m) :
    ∃ lines, m = colorEmissions s lines := by
  simp only [updateDecorations, Bool.not_true, Bool.false_eq_true, if_false] at h
  cases htok : tokenize (Document.getText doc) with
  | error e =>
      rw [htok] at h
      simp at h
  | ok toks =>
      rw [htok] at h
      simp at h
      exact ⟨_, h.symm⟩

/-- C3 counterexample: when tokenization fails, nothing at all is handed to
the renderer — in particular no mapping sending every configured colour to
an empty range list, although colours are configured. -/
theorem failed_pass_hands_renderer_nothing :
    (updateDecorations failingTokenizer true [""] sampleSettings
        DocState.initial).2.emissions = none
    ∧ configuredColors sampleSettings.bracketPairs ≠ [] :=
  ⟨rfl, by decide⟩

/-- C3 (amended): a pass whose tokenization yields no tokens — as for an
empty document — emits every configured non-empty-string colour mapped to an
empty range list; a pass whose tokenization fails hands nothing at all to
the renderer (previous decorations simply persist). -/
theorem empty_document_emits_all_colors_empty (s : Settings)
    (tokenize : String → Except String (List PrismTokOrStr)) (doc : Document)
    (hok : tokenize (Document.getText doc) = .ok []) :
    (∃ m, (updateDecorations tokenize true doc s DocState.initial).2.emissions = some m
      ∧ ∀ c ∈ configuredColors s.bracketPairs, c ≠ "" → (c, ([] : List Range)) ∈ m)
    ∧ (∀ tokenize2 e st, tokenize2 (Document.getText doc) = Except.error e →
        (updateDecorations tokenize2 true doc s st).2.emissions = none) := by
  constructor
  · refine ⟨colorEmissions s [], ?_, ?_⟩
    · simp only [updateDecorations, Bool.not_true, Bool.false_eq_true, if_false, hok,
        parseTokenOrStringArray, List.foldl_nil]
      rfl
    · intro c hc hne
      have h := mem_colorEmissions s [] c hc hne
      simpa [buildColorMap, mapGet] using h
  · intro tokenize2 e st h2
    simp only [updateDecorations, Bool.not_true, Bool.false_eq_true, if_false, h2]

theorem empty_document_emits_all_colors_empty_witness :
    ∃ m, (updateDecorations emptyTokenizer true [""] sampleSettings
        DocState.initial).2.emissions = some m
      ∧ ∀ c ∈ configuredColors sampleSettings.bracketPairs, c ≠ "" →
          (c, ([] : List Range)) ∈ m :=
  (empty_document_emits_all_colors_empty sampleSettings emptyTokenizer [""] rfl).1

/-- C4 counterexample: with the empty string among the configured palette
colours, a pass that reaches the renderer omits that configured colour from
the output mapping entirely. -/
theorem empty_string_color_missing_from_output :
    (updateDecorations emptyTokenizer true [""] emptyColorSettings
        DocState.initial).2.emissions = some [("orange", [])]
    ∧ "" ∈ configuredColors emptyColorSettings.bracketPairs
    ∧ mapGet [("orange", ([] : List Range))] "" = none := by
  refine ⟨?_, by decide, by decide⟩
  simp only [updateDecorations, Bool.not_true, Bool.false_eq_true, if_false,
    parseTokenOrStringArray, List.foldl_nil]
  rfl

/-- C4 (amended): on every pass that reaches the renderer, every
non-empty-string colour known to the active configuration (palette and
orphan colours of every pair) appears in the output mapping — a colour equal
to the empty string is skipped — and a colour that received no ranges this
pass is emitted mapped to an empty range list. -/
theorem pass_emits_every_nonempty_configured_color :
    (∀ tokenize doc (s : Settings) st m,
      (updateDecorations tokenize true doc s st).2.emissions = some m →
      ∀ c ∈ configuredColors s.bracketPairs, c ≠ "" → ∃ rs, (c, rs) ∈ m)
    ∧ (∀ (s : Settings) lines c, c ∈ configuredColors s.bracketPairs → c ≠ "" →
      mapGet (buildColorMap lines) c = none →
      (c, ([] : List Range)) ∈ colorEmissions s lines) := by
  constructor
  · intro tokenize doc s st m hm c hc hne
    obtain ⟨lines, rfl⟩ := updateDecorations_emissions_shape tokenize doc s st m hm
    exact ⟨_, mem_colorEmissions s lines c hc hne⟩
  · intro s lines c hc hne hnone
    have h := mem_colorEmissions s lines c hc hne
    rw [hnone] at h
    exact h

theorem pass_emits_every_nonempty_configured_color_witness :
    ∃ rs, ("gold", rs) ∈ [("gold", ([] : List Range)), ("orchid", []), ("red", [])] :=
  pass_emits_every_nonempty_configured_color.1 emptyTokenizer [""] sampleSettings
    DocState.initial _
    (by simp only [updateDecorations, Bool.not_true, Bool.false_eq_true, if_false,
          parseTokenOrStringArray, List.foldl_nil]
        rfl)
    "gold" (by decide) (by decide)

/-- C10: a configured colour equal to the empty string is never emitted —
neither set nor cleared — by any pass that reaches the renderer, even though
a decoration object is created for it at construction. -/
theorem empty_string_color_never_rendered :
    (∀ tokenize doc (s : Settings) st m rs,
      (updateDecorations tokenize true doc s st).2.emissions = some m →
      ("", rs) ∉ m)
    ∧ (∀ pairs, "" ∈ configuredColors pairs →
      (mapGet (createBracketDecorations pairs) "").isSome = true) := by
  constructor
  · intro tokenize doc s st m rs hm hmem
    obtain ⟨lines, rfl⟩ := updateDecorations_emissions_shape tokenize doc s st m hm
    simp only [colorEmissions] at hmem
    rcases List.mem_filterMap.1 hmem with ⟨cd, hcd, hf⟩
    by_cases h : cd.1 = ""
    · simp [h] at hf
    · simp [h] at hf
  · intro pairs hp
    exact configured_mem_decorations pairs "" hp

theorem empty_string_color_never_rendered_witness :
    (mapGet (createBracketDecorations emptyColorSettings.bracketPairs) "").isSome = true :=
  empty_string_color_never_rendered.2 emptyColorSettings.bracketPairs (by decide)


/-- C5 counterexample: a consecutive-mode configuration carrying an empty
colour palette — structurally invalid on the claim's reading — is accepted
by the constructor's validation without any error. -/
theorem empty_palette_accepted_without_error :
    parseConsecutivePairColors (.arr [.str "()", .arr [], .str "red"])
      = .ok [{ openC := .str "(", closeC := .str ")",
               colors := [], orphanColor := "red" }] := by
  rfl

/-- C5 (amended): the structural checks the constructor does make — a
non-array value, too few consecutive parameters, a wrongly typed palette or
orphan field, a bracket entry of the wrong element count or type — each fail
fast with a descriptive error naming the violated field; but an empty colour
palette, or an empty bracket literal inside a correctly-sized entry, passes
validation, so an engine instance can be built from such a configuration. -/
theorem settings_validation_checks :
    (∀ v : JSValue, (∀ xs, v ≠ .arr xs) →
      parseConsecutivePairColors v = .error "consecutivePairColors is not an array")
    ∧ (∀ xs : List JSValue, xs.length < 3 →
      parseConsecutivePairColors (.arr xs)
        = .error ("consecutivePairColors expected at least 3 parameters, actual: "
            ++ toString xs.length))
    ∧ (∀ colors orphan i (sb : String), sb.length ≠ 2 →
      parseConsecutiveEntry colors orphan i (.str sb)
        = .error ("consecutivePairColors[" ++ toString i
            ++ "] requires 2 element, e.g. ['(',')']"))
    ∧ (∀ colors orphan i (n : Int),
      parseConsecutiveEntry colors orphan i (.num n)
        = .error ("consecutivePairColors[ " ++ toString i
            ++ "] should be a string or an array of strings"))
    ∧ (∀ v : JSValue, (∀ xs, v ≠ .arr xs) →
      parseIndependentPairColors v = .error "independentPairColors is not an array")
    ∧ (∀ i (n : Int), parseIndependentEntry i (.num n)
        = .error ("independentPairColors[" ++ toString i ++ "] is not an array"))
    ∧ (∀ orphan i (sb : String), sb.length = 2 →
      parseConsecutiveEntry [] orphan i (.str sb)
        = .ok { openC := .str (jsCharAt sb 0), closeC := .str (jsCharAt sb 1),
                colors := [], orphanColor := orphan })
    ∧ (∀ (a b bad : JSValue), (∀ str, bad ≠ .str str) →
      parseConsecutivePairColors (.arr [a, b, bad])
        = .error "consecutivePairColors[2] is not a string")
    ∧ (∀ (a bad : JSValue) (orphan : String), (∀ xs, bad ≠ .arr xs) →
      parseConsecutivePairColors (.arr [a, bad, .str orphan])
        = .error "consecutivePairColors[1] is not a string[]")
    ∧ (∀ i (sb : String) (bad c : JSValue), ¬ sb.length < 2 → (∀ xs, bad ≠ .arr xs) →
      parseIndependentEntry i (.arr [.str sb, bad, c])
        = .error ("independentSettings[" ++ toString i ++ "][1] is not string[]"))
    ∧ (∀ i (sb : String) (colors : List JSValue) (bad : JSValue),
      ¬ sb.length < 2 → (∀ str, bad ≠ .str str) →
      parseIndependentEntry i (.arr [.str sb, .arr colors, bad])
        = .error ("independentSettings[" ++ toString i ++ "][2] is not a string"))
    ∧ (∀ (colors : List JSValue) (orphan : String) (i : Nat),
      parseConsecutiveEntry colors orphan i (.arr [.str "", .str ""])
        = .ok { openC := .str "", closeC := .str "",
                colors := colors, orphanColor := orphan })
    ∧ (∀ (i : Nat) (colors : List JSValue) (orphan : String),
      parseIndependentEntry i (.arr [.arr [.str "", .str ""], .arr colors, .str orphan])
        = .ok { openC := .str "", closeC := .str "",
                colors := colors, orphanColor := orphan }) := by
  refine ⟨?_, ?_, ?_, ?_, ?_, ?_, ?_, ?_, ?_, ?_, ?_, ?_, ?_⟩
  · intro v h
    cases v with
    | arr xs => exact absurd rfl (h xs)
    | str s => rfl
    | num n => rfl
    | jsBool b => rfl
    | null => rfl
  · intro xs h
    simp [parseConsecutivePairColors, h]
  · intro colors orphan i sb h
    simp [parseConsecutiveEntry, h]
  · intro colors orphan i n
    rfl
  · intro v h
    cases v with
    | arr xs => exact absurd rfl (h xs)
    | str s => rfl
    | num n => rfl
    | jsBool b => rfl
    | null => rfl
  · intro i n
    rfl
  · intro orphan i sb h
    simp [parseConsecutiveEntry, h]
  · intro a b bad h
    cases bad with
    | str str => exact absurd rfl (h str)
    | num n => simp [parseConsecutivePairColors]; rfl
    | jsBool bb => simp [parseConsecutivePairColors]; rfl
    | arr xs => simp [parseConsecutivePairColors]; rfl
    | null => simp [parseConsecutivePairColors]; rfl
  · intro a bad orphan h
    cases bad with
    | arr xs => exact absurd rfl (h xs)
    | str str => simp [parseConsecutivePairColors]; rfl
    | num n => simp [parseConsecutivePairColors]; rfl
    | jsBool bb => simp [parseConsecutivePairColors]; rfl
    | null => simp [parseConsecutivePairColors]; rfl
  · intro i sb bad c hlen h
    cases bad with
    | arr xs => exact absurd rfl (h xs)
    | str str => simp [parseIndependentEntry, hlen]
    | num n => simp [parseIndependentEntry, hlen]
    | jsBool bb => simp [parseIndependentEntry, hlen]
    | null => simp [parseIndependentEntry, hlen]
  · intro i sb colors bad hlen h
    cases bad with
    | str str => exact absurd rfl (h str)
    | num n => simp [parseIndependentEntry, hlen]
    | jsBool bb => simp [parseIndependentEntry, hlen]
    | arr xs => simp [parseIndependentEntry, hlen]
    | null => simp [parseIndependentEntry, hlen]
  · intro colors orphan i
    rfl
  · intro i colors orphan
    rfl

theorem settings_validation_checks_witness :
    parseConsecutivePairColors (.arr [.str "()"])
      = .error "consecutivePairColors expected at least 3 parameters, actual: 1" :=
  settings_validation_checks.2.1 [.str "()"] (by decide)

end BracketPairSpec
